import Mathlib

/-!
Verification of `recurrent_tasks` (src/recurrent_tasks/__main__.py).

The development shallowly embeds the two components of the program:

* the Rule Engine `get_cards`, a pure function from a rule list and an
  evaluation date to a list of candidate cards, and
* the Sync Engine `create_cards`, modelled as a deterministic function from
  the candidate list, the credentials, an environment (response statuses and
  the timezone-dependent ISO formatting of due timestamps) and the current
  remote state, to a trace of issued network calls, the final remote state
  and a success flag.

Python `datetime.date` is embedded as a year/month/day triple over the
proleptic Gregorian calendar, with `toordinal` and `weekday` computed exactly
as CPython does.  A naive `datetime` is represented by the ordinal of its
date part together with a time of day, so `date + timedelta(days = k)`
becomes integer addition on ordinals.
-/

namespace RecurrentTasks

/-! ## Calendar model (Python `datetime.date`, proleptic Gregorian) -/

/-- Gregorian leap-year test, as in CPython `datetime`. -/
def isLeap (y : Nat) : Bool :=
  y % 4 == 0 && (y % 100 != 0 || y % 400 == 0)

/-- Number of days in month `m` of year `y` (months are 1-based). -/
def daysInMonth (y m : Nat) : Nat :=
  if m == 2 then (if isLeap y then 29 else 28)
  else if m == 4 || m == 6 || m == 9 || m == 11 then 30
  else 31

/-- Days strictly before January 1 of year `y` (CPython `_days_before_year`). -/
def daysBeforeYear (y : Nat) : Nat :=
  365 * (y - 1) + (y - 1) / 4 - (y - 1) / 100 + (y - 1) / 400

/-- Days in year `y` strictly before the first of month `m`. -/
def daysBeforeMonth (y m : Nat) : Nat :=
  ((List.range (m - 1)).map (fun i => daysInMonth y (i + 1))).sum

/-- Python `datetime.date`: a proleptic Gregorian calendar date. -/
structure Date where
  year : Nat
  month : Nat
  day : Nat
  deriving DecidableEq, Repr

/-- CPython `date.toordinal`: ordinal of the date, with 0001-01-01 mapping
to 1. -/
def Date.toordinal (d : Date) : Nat :=
  daysBeforeYear d.year + daysBeforeMonth d.year d.month + d.day

/-- CPython `date.weekday`: 0 = Monday .. 6 = Sunday.  0001-01-01 (ordinal 1)
was a Monday. -/
def Date.weekday (d : Date) : Nat :=
  (d.toordinal + 6) % 7

/-- Python `datetime.time` restricted to what the program uses
(hour/minute/second). -/
structure Time where
  hour : Nat
  minute : Nat
  second : Nat
  deriving DecidableEq, Repr

/-- Python naive `datetime`, represented by the proleptic Gregorian ordinal of
its date part plus a time of day.  `datetime.combine(d, t)` becomes
`⟨d.toordinal, t⟩`, and adding `timedelta(days = k)` to the date part becomes
adding `k` to the ordinal. -/
structure DateTime where
  ordinal : Int
  timeOfDay : Time
  deriving DecidableEq, Repr

/-! ## Data model (`Rule`, `Card`) -/

/-- The `Rule` dataclass: a rule for creating a recurrent task.  Optional
`int` fields are `Option Int`; this is the well-typed fragment that the
program's JSON input contract describes (the dynamic loader is modelled
separately below). -/
structure Rule where
  card_name : String
  list_id : String
  year : Option Int
  month : Option Int
  day : Option Int
  weekday : Option Int
  due_in : Option Int
  deriving DecidableEq, Repr

/-- The `Card` dataclass: a Trello card to be created. -/
structure Card where
  name : String
  list_id : String
  due : Option DateTime
  deriving DecidableEq, Repr

/-! ## Rule Engine (`get_cards`) -/

/-- The `card_due` expression inside `get_cards`:
`None if rule.due_in is None else
 datetime.combine(evaluation_date + timedelta(days=rule.due_in), due_time)`. -/
def card_due (rule : Rule) (evaluation_date : Date) (due_time : Time) :
    Option DateTime :=
  rule.due_in.map (fun k => ⟨(evaluation_date.toordinal : Int) + k, due_time⟩)

/-- Translation of `get_cards(rules, evaluation_date, due_time)`: the loop body tests each
set constraint and `continue`s (skips the rule) on the first mismatch;
otherwise it appends a card.  The Python signature defaults `due_time` to
`time(9, 0, 0)`; callers of this embedding pass it explicitly. -/
def get_cards (rules : List Rule) (evaluation_date : Date) (due_time : Time) :
    List Card :=
  match rules with
  | [] => []
  | rule :: rest =>
    let tail := get_cards rest evaluation_date due_time
    if rule.year.isSome && rule.year != some (evaluation_date.year : Int) then
      tail
    else if rule.month.isSome && rule.month != some (evaluation_date.month : Int) then
      tail
    else if rule.day.isSome && rule.day != some (evaluation_date.day : Int) then
      tail
    else if rule.weekday.isSome && rule.weekday != some (evaluation_date.weekday : Int) then
      tail
    else
      ⟨rule.card_name, rule.list_id, card_due rule evaluation_date due_time⟩ :: tail

/-- The default `due_time` of `get_cards`, `time(9, 0, 0)`;  `main` calls
`get_cards(rules, date.today())` with this default. -/
def default_due_time : Time := ⟨9, 0, 0⟩

/-! ## Sync Engine (`create_cards`)

`create_cards` performs network I/O: one GET per distinct `list_id` occurring
among the cards (iterating over a Python `set`), then one POST per
non-skipped card.  We model the remote side by

* a `RemoteState`, the list of card names currently on each Trello list
  (what a successful GET returns, and what a successful POST extends), and
* an `Env` of response statuses plus the formatting function applied to a
  due timestamp (`due.astimezone(timezone.utc).isoformat()`, whose result
  depends on the process-local timezone and is therefore kept abstract).

The run result records the trace of issued calls in order, the final remote
state and whether the run completed without raising `RuntimeError`. -/

/-- The names of the cards currently on each Trello list. -/
def RemoteState := String → List String

/-- The query string of the POST to `https://api.trello.com/1/cards`:
`idList`, `name`, `key`, `token`, and `due` only when the card has one. -/
structure CreateQuery where
  idList : String
  name : String
  key : String
  token : String
  due : Option String
  deriving DecidableEq, Repr

/-- A network call issued by `create_cards`: a GET of the cards on a list, or
a POST creating a card. -/
inductive Event where
  | read (list_id : String)
  | create (q : CreateQuery)
  deriving DecidableEq, Repr

def Event.isRead : Event → Bool
  | .read _ => true
  | .create _ => false

def Event.isCreate : Event → Bool
  | .read _ => false
  | .create _ => true

/-- The remote collaborator's behaviour: the HTTP status returned by each GET
and POST, and the (timezone-dependent) UTC ISO-8601 rendering of a naive due
timestamp. -/
structure Env where
  readStatus : String → Nat
  createStatus : CreateQuery → Nat
  utcIso : DateTime → String

/-- Result of a `create_cards` run: the calls issued in order, the remote
state afterwards, and `ok = false` iff the run raised `RuntimeError`. -/
structure RunResult where
  trace : List Event
  state : RemoteState
  ok : Bool

/-- The first loop of `create_cards`: for each distinct `list_id`, GET the
cards on that list; a non-200 status raises at once, otherwise the fetched
names are recorded under the key `list_id`.  Returns the issued read events
and, unless a read failed, the `current_card_names` dict as an association
list in iteration order. -/
def fetchBaselines (env : Env) (state : RemoteState) :
    List String → List Event × Option (List (String × List String))
  | [] => ([], some [])
  | list_id :: rest =>
    if env.readStatus list_id != 200 then
      ([Event.read list_id], none)
    else
      match fetchBaselines env state rest with
      | (evs, none) => (Event.read list_id :: evs, none)
      | (evs, some dict) => (Event.read list_id :: evs, some ((list_id, state list_id) :: dict))

/-- The POST query built for a card inside the second loop of
`create_cards`. -/
def mkQuery (card : Card) (api_key token : String) (env : Env) : CreateQuery :=
  ⟨card.list_id, card.name, api_key, token, card.due.map env.utcIso⟩

/-- The second loop of `create_cards`.  `keys` is the list of keys of the
`current_card_names` dict (the distinct destination ids that were read): the
source tests `if card.name in current_card_names`, which is membership among
the DICT KEYS, i.e. among destination ids — not among the fetched card
names.  A skipped card issues nothing; otherwise a POST is issued, a non-200
status raises at once, and a successful POST adds the card name to its
list's remote state. -/
def createLoop (env : Env) (api_key token : String) (keys : List String) :
    RemoteState → List Card → List Event × RemoteState × Bool
  | state, [] => ([], state, true)
  | state, card :: rest =>
    if keys.contains card.name then
      createLoop env api_key token keys state rest
    else
      let q := mkQuery card api_key token env
      if env.createStatus q != 200 then
        ([Event.create q], state, false)
      else
        let state1 : RemoteState :=
          fun l => if l = card.list_id then state l ++ [card.name] else state l
        let (evs, st, ok) := createLoop env api_key token keys state1 rest
        (Event.create q :: evs, st, ok)

/-- Translation of `create_cards(cards, api_key, token)` against remote state `state` and
environment `env`.  `set(card.list_id for card in cards)` iterates over the
distinct destination ids in an order CPython leaves unspecified; we model the
iteration order by `List.dedup` (any fixed enumeration of the distinct ids —
no property below depends on the order). -/
def create_cards (cards : List Card) (api_key token : String) (env : Env)
    (state : RemoteState) : RunResult :=
  let list_ids := (cards.map (fun c => c.list_id)).dedup
  match fetchBaselines env state list_ids with
  | (readEvs, none) => ⟨readEvs, state, false⟩
  | (readEvs, some current_card_names) =>
    let keys := current_card_names.map (fun p => p.1)
    let (createEvs, st, ok) := createLoop env api_key token keys state cards
    ⟨readEvs ++ createEvs, st, ok⟩

/-! ## Rule loading (`main`: `rules = [Rule(**rule) for rule in json.load(...)]`)

The rules file is JSON; `json.load` produces for each record a dict whose
values we restrict to the kinds relevant here (strings, integers, null —
enough to express both well-formed records and the ill-typed ones the claims
mention).  `Rule(**rule)` is a plain dataclass call: it raises `TypeError`
iff a keyword is not a field of `Rule` or a field is missing; it performs NO
type checking and NO validation of the values, so the resulting object's
fields hold whatever the record supplied. -/

/-- A JSON value occurring as a field of a rule record. -/
inductive JVal where
  | jstr (s : String)
  | jint (n : Int)
  | jnull
  deriving DecidableEq, Repr

/-- What `Rule(**rule)` actually constructs: a `Rule` whose fields hold the
record's values unchecked (Python dataclasses do not enforce the
annotations). -/
structure DynRule where
  card_name : JVal
  list_id : JVal
  year : JVal
  month : JVal
  day : JVal
  weekday : JVal
  due_in : JVal
  deriving DecidableEq, Repr

/-- The field names of the `Rule` dataclass, in declaration order. -/
def ruleFields : List String :=
  ["card_name", "list_id", "year", "month", "day", "weekday", "due_in"]

/-- Semantics of `Rule(**rec)`: raises `TypeError` when `rec` has a key that is not a
field of `Rule`, or lacks one of the seven fields (none of them has a
default); otherwise constructs the object from the values as they are. -/
def ruleOfRecord (rec : List (String × JVal)) : Except String DynRule :=
  if rec.any (fun p => !ruleFields.contains p.1) then
    .error "TypeError: unexpected keyword argument"
  else
    match rec.lookup "card_name", rec.lookup "list_id", rec.lookup "year",
        rec.lookup "month", rec.lookup "day", rec.lookup "weekday",
        rec.lookup "due_in" with
    | some cn, some li, some y, some m, some d, some w, some di =>
      .ok ⟨cn, li, y, m, d, w, di⟩
    | _, _, _, _, _, _, _ =>
      .error "TypeError: missing required positional argument"

/-- Reading a loaded optional-int field back into the well-typed fragment:
`null` is `None` (wildcard / no due date), an integer is itself; a string is
outside the fragment. -/
def JVal.toOptInt : JVal → Option (Option Int)
  | .jnull => some none
  | .jint n => some (some n)
  | .jstr _ => none

/-- Reading a loaded string field back into the well-typed fragment. -/
def JVal.toStr : JVal → Option String
  | .jstr s => some s
  | _ => none

/-- A loaded rule whose fields are well-typed (strings for `card_name` and
`list_id`, integer-or-null for the rest), as the `Rule` that `get_cards`
consumes. -/
def DynRule.toRule (r : DynRule) : Option Rule :=
  match r.card_name.toStr, r.list_id.toStr, r.year.toOptInt, r.month.toOptInt,
      r.day.toOptInt, r.weekday.toOptInt, r.due_in.toOptInt with
  | some cn, some li, some y, some m, some d, some w, some di =>
    some ⟨cn, li, y, m, d, w, di⟩
  | _, _, _, _, _, _, _ => none

/-- The rule-loading stage of `main`:
`rules = [Rule(**rule) for rule in json.load(rules_file)]`.  The list
comprehension propagates the first `TypeError`; it runs before any network
call is made (`create_cards` is only reached afterwards). -/
def loadRules (recs : List (List (String × JVal))) :
    Except String (List DynRule) :=
  recs.mapM ruleOfRecord

/-! ## Spec-side predicates and helper lemmas for the Rule Engine -/

/-- Spec-side matching predicate (from the spec's words): every SET calendar
field must equal the corresponding component of the evaluation date; an
unset field always passes; logical AND across the four fields. -/
def matchesSpec (r : Rule) (d : Date) : Bool :=
  (match r.year with | none => true | some y => y == (d.year : Int)) &&
  (match r.month with | none => true | some m => m == (d.month : Int)) &&
  (match r.day with | none => true | some x => x == (d.day : Int)) &&
  (match r.weekday with | none => true | some w => w == (d.weekday : Int))

/-- The candidate card a matching rule produces. -/
def toCard (r : Rule) (d : Date) (t : Time) : Card :=
  ⟨r.card_name, r.list_id, card_due r d t⟩

theorem get_cards_cons (r : Rule) (rules : List Rule) (d : Date) (t : Time) :
    get_cards (r :: rules) d t =
      if matchesSpec r d then toCard r d t :: get_cards rules d t
      else get_cards rules d t := by
  rcases hy : r.year with _ | y <;> rcases hm : r.month with _ | m <;>
    rcases hd : r.day with _ | x <;> rcases hw : r.weekday with _ | w <;>
    simp [get_cards, matchesSpec, toCard, hy, hm, hd, hw] <;>
    split_ifs <;> simp_all

/-! ## Concrete fixtures used by witnesses and counterexamples -/

/-- An environment in which every remote call succeeds. -/
def envOk : Env := ⟨fun _ => 200, fun _ => 200, fun _ => "1970-01-01T09:00:00+00:00"⟩

/-- An empty remote state: no list has any card. -/
def emptyState : RemoteState := fun _ => []

/-- Monday 2026-10-12, used as a concrete evaluation date. -/
def d0 : Date := ⟨2026, 10, 12⟩

/-- A rule with all calendar fields unset and `due_in = 0`. -/
def r0 : Rule := ⟨"n", "L", none, none, none, none, some 0⟩

/-! ## Claims about the Rule Engine -/

/-- C3: Rule-matching semantics of `get_cards`: a rule yields a candidate
iff every set calendar field (year, month, day, weekday) equals the
corresponding component of the evaluation date (unset fields always pass,
logical AND across set fields); candidates appear in input rule order and no
deduplication of names is performed — `get_cards` is exactly
filter-by-`matchesSpec` followed by the per-rule card construction, which
preserves order and duplicates. -/
theorem c3_rule_matching (rules : List Rule) (d : Date) (t : Time) :
    get_cards rules d t =
      (rules.filter (fun r => matchesSpec r d)).map (fun r => toCard r d t) := by
  induction rules with
  | nil => rfl
  | cons r rest ih =>
    rw [get_cards_cons, List.filter_cons]
    by_cases h : matchesSpec r d <;> simp [h, ih]

/-- C9: Daily-fire invariant: a rule whose four calendar fields are all
unset produces a candidate card for every evaluation date. -/
theorem c9_daily_fire (r : Rule) (d : Date) (t : Time) (hy : r.year = none)
    (hm : r.month = none) (hd : r.day = none) (hw : r.weekday = none) :
    get_cards [r] d t = [⟨r.card_name, r.list_id, card_due r d t⟩] := by
  rw [get_cards_cons]
  simp [matchesSpec, hy, hm, hd, hw, toCard, get_cards]

theorem c9_daily_fire_witness :
    (Rule.mk "daily" "L" none none none none none).year = none ∧
    (Rule.mk "daily" "L" none none none none none).month = none ∧
    (Rule.mk "daily" "L" none none none none none).day = none ∧
    (Rule.mk "daily" "L" none none none none none).weekday = none ∧
    get_cards [Rule.mk "daily" "L" none none none none none] d0 default_due_time =
      [Card.mk "daily" "L" none] :=
  ⟨rfl, rfl, rfl, rfl,
    c9_daily_fire (Rule.mk "daily" "L" none none none none none) d0
      default_due_time rfl rfl rfl rfl⟩

/-- C4: Due-timestamp computation: a candidate produced by a rule has
`due = evaluation date + due_in days, combined with due_time` when `due_in`
is set (so `due_in = 0` gives the evaluation date at `due_time`, which
defaults to 09:00), and no due timestamp when `due_in` is unset; when a due
timestamp is present the creation query transmits it as
`due.astimezone(timezone.utc).isoformat()` (the environment's UTC ISO-8601
rendering), and omits the `due` parameter otherwise. -/
theorem c4_due_timestamp (r : Rule) (d : Date) (t : Time) (c : Card)
    (key tok : String) (env : Env) (hc : c ∈ get_cards [r] d t) :
    c.due = r.due_in.map (fun k => DateTime.mk ((d.toordinal : Int) + k) t) ∧
    (r.due_in = some 0 → c.due = some (DateTime.mk (d.toordinal : Int) t)) ∧
    (r.due_in = none → c.due = none) ∧
    (mkQuery c key tok env).due = c.due.map env.utcIso := by
  rw [get_cards_cons] at hc
  by_cases h : matchesSpec r d
  · simp only [h, if_true, get_cards, List.mem_singleton] at hc
    subst hc
    refine ⟨rfl, ?_, ?_, rfl⟩
    · intro h0; simp [toCard, card_due, h0]
    · intro h0; simp [toCard, card_due, h0]
  · simp [h, get_cards] at hc

theorem c4_due_timestamp_witness :
    (Card.mk "n" "L" (some (DateTime.mk 739901 default_due_time))).due =
      some (DateTime.mk ((d0.toordinal : Int)) default_due_time) ∧
    (mkQuery (Card.mk "n" "L" (some (DateTime.mk 739901 default_due_time)))
        "k" "t" envOk).due =
      (Card.mk "n" "L" (some (DateTime.mk 739901 default_due_time))).due.map
        envOk.utcIso :=
  ⟨(c4_due_timestamp r0 d0 default_due_time
      (Card.mk "n" "L" (some (DateTime.mk 739901 default_due_time)))
      "k" "t" envOk (by decide)).2.1 rfl,
   (c4_due_timestamp r0 d0 default_due_time
      (Card.mk "n" "L" (some (DateTime.mk 739901 default_due_time)))
      "k" "t" envOk (by decide)).2.2.2⟩

/-! ## Helper lemmas about the Sync Engine -/

theorem fetchBaselines_ok (env : Env) (state : RemoteState) (ls : List String)
    (h : ∀ l ∈ ls, env.readStatus l = 200) :
    fetchBaselines env state ls =
      (ls.map Event.read, some (ls.map (fun l => (l, state l)))) := by
  induction ls with
  | nil => rfl
  | cons l rest ih =>
    have hl : env.readStatus l = 200 := h l (List.mem_cons_self _ _)
    have hr : ∀ x ∈ rest, env.readStatus x = 200 := fun x hx =>
      h x (List.mem_cons_of_mem _ hx)
    simp [fetchBaselines, hl, ih hr]

theorem fetchBaselines_events_read (env : Env) (state : RemoteState) :
    ∀ ls : List String, ∀ e ∈ (fetchBaselines env state ls).1, e.isRead = true := by
  intro ls
  induction ls with
  | nil => simp [fetchBaselines]
  | cons l rest ih =>
    cases hl : env.readStatus l != 200 with
    | true => simp [fetchBaselines, hl, Event.isRead]
    | false =>
      rcases hfb : fetchBaselines env state rest with ⟨evs, o⟩
      cases o <;>
        · intro e he
          simp only [fetchBaselines, hl, hfb] at he
          rcases List.mem_cons.mp he with h1 | h1
          · simp [h1, Event.isRead]
          · exact ih e (by rw [hfb]; exact h1)

theorem fetchBaselines_fail (env : Env) (state : RemoteState) :
    ∀ ls : List String, ls.any (fun l => env.readStatus l != 200) = true →
      (fetchBaselines env state ls).2 = none := by
  intro ls
  induction ls with
  | nil => simp
  | cons l rest ih =>
    intro h
    cases hl : env.readStatus l != 200 with
    | true => simp [fetchBaselines, hl]
    | false =>
      simp only [List.any_cons, hl, Bool.false_or] at h
      rcases hfb : fetchBaselines env state rest with ⟨evs, o⟩
      have := ih h
      rw [hfb] at this
      cases o with
      | none => simp [fetchBaselines, hl, hfb]
      | some dict => simp at this

theorem createLoop_events_create (env : Env) (k t : String) (keys : List String) :
    ∀ (cards : List Card) (state : RemoteState),
      ∀ e ∈ (createLoop env k t keys state cards).1, e.isCreate = true := by
  intro cards
  induction cards with
  | nil => intro state e he; simp [createLoop] at he
  | cons card rest ih =>
    intro state e he
    by_cases hk : card.name ∈ keys
    · exact ih state e (by simpa [createLoop, hk] using he)
    · by_cases hs : env.createStatus (mkQuery card k t env) = 200
      · simp only [createLoop] at he
        rw [if_neg (by simpa using hk), if_neg (by simp [hs])] at he
        rcases List.mem_cons.mp he with h1 | h1
        · simp [h1, Event.isCreate]
        · exact ih _ e h1
      · simp only [createLoop] at he
        rw [if_neg (by simpa using hk), if_pos (by simpa using hs)] at he
        simp at he
        simp [he, Event.isCreate]

theorem createLoop_state_mono (env : Env) (k t : String) (keys : List String) :
    ∀ (cards : List Card) (state : RemoteState) (l : String) (x : String),
      x ∈ state l → x ∈ (createLoop env k t keys state cards).2.1 l := by
  intro cards
  induction cards with
  | nil => intro state l x hx; simpa [createLoop] using hx
  | cons card rest ih =>
    intro state l x hx
    by_cases hk : card.name ∈ keys
    · simpa [createLoop, hk] using ih state l x hx
    · by_cases hs : env.createStatus (mkQuery card k t env) = 200
      · have hx1 : x ∈ (fun l =>
            if l = card.list_id then state l ++ [card.name] else state l) l := by
          by_cases hll : l = card.list_id
          · show x ∈ if l = card.list_id then state l ++ [card.name] else state l
            rw [if_pos hll]; exact List.mem_append_left _ hx
          · show x ∈ if l = card.list_id then state l ++ [card.name] else state l
            rw [if_neg hll]; exact hx
        have hrec := ih (fun l =>
          if l = card.list_id then state l ++ [card.name] else state l) l x hx1
        simp only [createLoop]
        rw [if_neg (by simpa using hk), if_neg (by simp [hs])]
        exact hrec
      · simp only [createLoop]
        rw [if_neg (by simpa using hk), if_pos (by simpa using hs)]
        exact hx

theorem createLoop_created_persists (env : Env) (k t : String) (keys : List String) :
    ∀ (cards : List Card) (state : RemoteState) (q : CreateQuery),
      Event.create q ∈ (createLoop env k t keys state cards).1 →
      env.createStatus q = 200 →
      q.name ∈ (createLoop env k t keys state cards).2.1 q.idList := by
  intro cards
  induction cards with
  | nil => intro state q hq _; simp [createLoop] at hq
  | cons card rest ih =>
    intro state q hq hq200
    by_cases hk : card.name ∈ keys
    · simp only [createLoop] at hq ⊢
      rw [if_pos (by simpa using hk)] at hq ⊢
      exact ih state q hq hq200
    · by_cases hs : env.createStatus (mkQuery card k t env) = 200
      · simp only [createLoop] at hq ⊢
        rw [if_neg (by simpa using hk), if_neg (by simp [hs])] at hq ⊢
        rcases List.mem_cons.mp hq with h1 | h1
        · have hqq : q = mkQuery card k t env := by
            injection h1
          subst hqq
          refine createLoop_state_mono env k t keys rest _ _ _ ?_
          simp [mkQuery]
        · exact ih _ q h1 hq200
      · simp only [createLoop] at hq ⊢
        rw [if_neg (by simpa using hk), if_pos (by simpa using hs)] at hq ⊢
        simp at hq
        rw [hq] at hq200
        exact absurd hq200 hs

theorem createLoop_fail_fast (env : Env) (k t : String) (keys : List String) :
    ∀ (cards : List Card) (state : RemoteState) (s1 : List Event) (q : CreateQuery)
      (t2 : List Event),
      (createLoop env k t keys state cards).1 = s1 ++ Event.create q :: t2 →
      env.createStatus q ≠ 200 →
      t2 = [] ∧ (createLoop env k t keys state cards).2.2 = false := by
  intro cards
  induction cards with
  | nil =>
    intro state s1 q t2 htr _
    simp [createLoop] at htr
  | cons card rest ih =>
    intro state s1 q t2 htr hq
    by_cases hk : card.name ∈ keys
    · simp only [createLoop] at htr ⊢
      rw [if_pos (by simpa using hk)] at htr ⊢
      exact ih state s1 q t2 htr hq
    · by_cases hs : env.createStatus (mkQuery card k t env) = 200
      · simp only [createLoop] at htr ⊢
        rw [if_neg (by simpa using hk), if_neg (by simp [hs])] at htr ⊢
        cases s1 with
        | nil =>
          simp at htr
          obtain ⟨h1, _⟩ := htr
          rw [← h1] at hq
          exact absurd hs hq
        | cons a s1 =>
          simp at htr
          obtain ⟨_, h2⟩ := htr
          exact ih _ s1 q t2 h2 hq
      · simp only [createLoop] at htr ⊢
        rw [if_neg (by simpa using hk), if_pos (by simpa using hs)] at htr ⊢
        cases s1 with
        | nil =>
          simp at htr
          exact ⟨htr.2, rfl⟩
        | cons a s1 =>
          simp at htr

/-- If every event of `res` is a read, a create event in `res ++ ces` sits
inside `ces`, with the same remaining suffix. -/
theorem reads_append_split (res : List Event) (hres : ∀ e ∈ res, e.isRead = true) :
    ∀ (ces t1 : List Event) (q : CreateQuery) (t2 : List Event),
      res ++ ces = t1 ++ Event.create q :: t2 →
      ∃ s1, ces = s1 ++ Event.create q :: t2 := by
  induction res with
  | nil => intro ces t1 q t2 h; exact ⟨t1, by simpa using h⟩
  | cons r res ih =>
    intro ces t1 q t2 h
    cases t1 with
    | nil =>
      simp at h
      have := hres r (List.mem_cons_self _ _)
      rw [h.1] at this
      simp [Event.isRead] at this
    | cons a t1 =>
      simp at h
      exact ih (fun e he => hres e (List.mem_cons_of_mem _ he)) ces t1 q t2 h.2

theorem create_cards_eq_of_reads_ok (cards : List Card) (k t : String) (env : Env)
    (state : RemoteState)
    (h : ∀ l ∈ (cards.map (fun c => c.list_id)).dedup, env.readStatus l = 200) :
    create_cards cards k t env state =
      ⟨((cards.map (fun c => c.list_id)).dedup).map Event.read ++
          (createLoop env k t ((cards.map (fun c => c.list_id)).dedup) state cards).1,
        (createLoop env k t ((cards.map (fun c => c.list_id)).dedup) state cards).2.1,
        (createLoop env k t ((cards.map (fun c => c.list_id)).dedup) state cards).2.2⟩ := by
  have hfb := fetchBaselines_ok env state ((cards.map (fun c => c.list_id)).dedup) h
  have hmap : ∀ xs : List String, List.map (fun (p : String × List String) => p.1)
      (List.map (fun l => (l, state l)) xs) = xs := by
    intro xs
    induction xs with
    | nil => rfl
    | cons a xs ih => simp only [List.map_cons]; rw [ih]
  simp only [create_cards, hfb]
  rw [hmap]

theorem create_cards_eq_of_read_fail (cards : List Card) (k t : String) (env : Env)
    (state : RemoteState)
    (h : ∃ l ∈ (cards.map (fun c => c.list_id)).dedup, env.readStatus l ≠ 200) :
    create_cards cards k t env state =
      ⟨(fetchBaselines env state ((cards.map (fun c => c.list_id)).dedup)).1,
        state, false⟩ := by
  have hany : ((cards.map (fun c => c.list_id)).dedup).any
      (fun l => env.readStatus l != 200) = true := by
    rcases h with ⟨l, hl, hne⟩
    exact List.any_eq_true.mpr ⟨l, hl, by simpa using hne⟩
  have hfb := fetchBaselines_fail env state _ hany
  rcases hfb2 : fetchBaselines env state ((cards.map (fun c => c.list_id)).dedup)
    with ⟨evs, o⟩
  rw [hfb2] at hfb
  simp at hfb
  subst hfb
  simp [create_cards, hfb2]

/-! ## Claims about the Sync Engine's call discipline -/

/-- C5: Reads precede creates and read failure aborts everything:
`create_cards` issues exactly one read per distinct destination among the
candidates (the deduplicated destination list is duplicate-free and covers
exactly the candidates' destinations); when every read succeeds the trace is
that read block followed only by creation calls; when some read returns a
non-success status the run raises with a trace containing only read calls —
no creation call is attempted and the remote state is unchanged. -/
theorem c5_reads_precede_creates (cards : List Card) (k t : String) (env : Env)
    (state : RemoteState) :
    ((cards.map (fun c => c.list_id)).dedup).Nodup ∧
    (∀ l, l ∈ (cards.map (fun c => c.list_id)).dedup ↔
      l ∈ cards.map (fun c => c.list_id)) ∧
    (((cards.map (fun c => c.list_id)).dedup).all
        (fun l => env.readStatus l == 200) = true →
      (create_cards cards k t env state).trace =
        ((cards.map (fun c => c.list_id)).dedup).map Event.read ++
          ((create_cards cards k t env state).trace.drop
            ((cards.map (fun c => c.list_id)).dedup).length) ∧
      ((create_cards cards k t env state).trace.drop
          ((cards.map (fun c => c.list_id)).dedup).length).all Event.isCreate = true) ∧
    (((cards.map (fun c => c.list_id)).dedup).any
        (fun l => env.readStatus l != 200) = true →
      (create_cards cards k t env state).trace.all Event.isRead = true ∧
      (create_cards cards k t env state).ok = false ∧
      (create_cards cards k t env state).state = state) := by
  refine ⟨List.nodup_dedup _, fun l => List.mem_dedup, ?_, ?_⟩
  · intro hall
    have h : ∀ l ∈ (cards.map (fun c => c.list_id)).dedup, env.readStatus l = 200 := by
      intro l hl
      have := List.all_eq_true.mp hall l hl
      simpa using this
    rw [create_cards_eq_of_reads_ok cards k t env state h]
    constructor
    · simp [List.drop_left']
    · rw [List.all_eq_true]
      intro e he
      simp only [List.drop_left'] at he
      rw [List.drop_left'] at he
      · exact createLoop_events_create env k t _ cards state e he
      · simp
    -- length of the read block equals the number of distinct destinations
  · intro hany
    have h : ∃ l ∈ (cards.map (fun c => c.list_id)).dedup, env.readStatus l ≠ 200 := by
      rcases List.any_eq_true.mp hany with ⟨l, hl, hne⟩
      exact ⟨l, hl, by simpa using hne⟩
    rw [create_cards_eq_of_read_fail cards k t env state h]
    refine ⟨?_, rfl, rfl⟩
    rw [List.all_eq_true]
    exact fetchBaselines_events_read env state _

theorem c5_reads_precede_creates_witness :
    (create_cards [Card.mk "a" "L" none, Card.mk "b" "M" none] "k" "t"
        envOk emptyState).trace =
      (["L", "M"].map Event.read) ++
        ((create_cards [Card.mk "a" "L" none, Card.mk "b" "M" none] "k" "t"
          envOk emptyState).trace.drop 2) ∧
    ((create_cards [Card.mk "a" "L" none, Card.mk "b" "M" none] "k" "t"
        envOk emptyState).trace.drop 2).all Event.isCreate = true :=
  (c5_reads_precede_creates [Card.mk "a" "L" none, Card.mk "b" "M" none]
    "k" "t" envOk emptyState).2.2.1 (by decide)

/-- An environment in which every read succeeds and a creation call fails
exactly when the card is named "b". -/
def envCF : Env :=
  ⟨fun _ => 200, fun q => if q.name = "b" then 500 else 200,
    fun _ => "1970-01-01T09:00:00+00:00"⟩

/-- C6: Create failure is fail-fast without rollback: a creation call
whose response status is non-success is the last call of the run (nothing is
issued for the remaining candidates) and the run reports failure, while
every creation call that succeeded earlier leaves its card present in the
final remote state — nothing is compensated or undone. -/
theorem c6_create_failure_fail_fast (cards : List Card) (k t : String) (env : Env)
    (state : RemoteState) :
    (∀ q, Event.create q ∈ (create_cards cards k t env state).trace →
      env.createStatus q = 200 →
      q.name ∈ (create_cards cards k t env state).state q.idList) ∧
    (∀ t1 q t2,
      (create_cards cards k t env state).trace = t1 ++ Event.create q :: t2 →
      env.createStatus q ≠ 200 →
      t2 = [] ∧ (create_cards cards k t env state).ok = false) := by
  by_cases hall : ∀ l ∈ (cards.map (fun c => c.list_id)).dedup, env.readStatus l = 200
  · rw [create_cards_eq_of_reads_ok cards k t env state hall]
    constructor
    · intro q hq hq200
      rcases List.mem_append.mp hq with h1 | h1
      · rcases List.mem_map.mp h1 with ⟨l, _, hl⟩
        simp at hl
      · exact createLoop_created_persists env k t _ cards state q h1 hq200
    · intro t1 q t2 htr hq
      have hres : ∀ e ∈ ((cards.map (fun c => c.list_id)).dedup).map Event.read,
          e.isRead = true := by
        intro e he
        rcases List.mem_map.mp he with ⟨l, _, hl⟩
        rw [← hl]
        rfl
      rcases reads_append_split _ hres _ t1 q t2 htr with ⟨s1, hs1⟩
      exact createLoop_fail_fast env k t _ cards state s1 q t2 hs1 hq
  · push_neg at hall
    rcases hall with ⟨l, hl, hne⟩
    rw [create_cards_eq_of_read_fail cards k t env state ⟨l, hl, hne⟩]
    constructor
    · intro q hq _
      have := fetchBaselines_events_read env state
        ((cards.map (fun c => c.list_id)).dedup) _ hq
      simp [Event.isRead] at this
    · intro t1 q t2 htr _
      have h2 : (fetchBaselines env state ((cards.map (fun c => c.list_id)).dedup)).1 =
          t1 ++ Event.create q :: t2 := htr
      have hmem : Event.create q ∈
          (fetchBaselines env state ((cards.map (fun c => c.list_id)).dedup)).1 := by
        rw [h2]
        exact List.mem_append_right _ (List.mem_cons_self _ _)
      have := fetchBaselines_events_read env state
        ((cards.map (fun c => c.list_id)).dedup) _ hmem
      simp [Event.isRead] at this

theorem c6_create_failure_fail_fast_witness :
    "a" ∈ (create_cards [Card.mk "a" "L" none, Card.mk "b" "L" none,
        Card.mk "c" "L" none] "k" "t" envCF emptyState).state "L" ∧
    ([] : List Event) = [] ∧
    (create_cards [Card.mk "a" "L" none, Card.mk "b" "L" none, Card.mk "c" "L" none]
        "k" "t" envCF emptyState).ok = false :=
  ⟨(c6_create_failure_fail_fast [Card.mk "a" "L" none, Card.mk "b" "L" none,
        Card.mk "c" "L" none] "k" "t" envCF emptyState).1
      (CreateQuery.mk "L" "a" "k" "t" none) (by decide) (by decide),
    (c6_create_failure_fail_fast [Card.mk "a" "L" none, Card.mk "b" "L" none,
        Card.mk "c" "L" none] "k" "t" envCF emptyState).2
      [Event.read "L", Event.create (CreateQuery.mk "L" "a" "k" "t" none)]
      (CreateQuery.mk "L" "b" "k" "t" none) [] (by decide) (by decide)⟩

/-! ## Claims the code violates (the dedup test reads the wrong collection)

`create_cards` tests `if card.name in current_card_names`, where
`current_card_names` is the DICT mapping each destination id to its fetched
name list; Python `in` on a dict tests key membership, so the test compares
the card name against the destination ids rather than against the fetched
card names.  The docstring ("Create cards from a list if they don't already
exist") and the spec describe the intended behaviour; the evaluations below
exhibit the divergence. -/

/-- C1 (code-bug evaluation): A first fully successful run of
`create_cards` on the single candidate "X" for destination "L" against an
empty remote creates "X" (the card is then present remotely), yet a second
run with the same candidate set against the resulting remote state again
issues one creation call instead of zero: the run is not idempotent, because
the dedup test never consults the fetched name lists. -/
theorem c1_second_run_still_creates :
    (create_cards [Card.mk "X" "L" none] "k" "t" envOk emptyState).ok = true ∧
    (create_cards [Card.mk "X" "L" none] "k" "t" envOk emptyState).trace.countP
      Event.isCreate = 1 ∧
    (create_cards [Card.mk "X" "L" none] "k" "t" envOk emptyState).state "L" = ["X"] ∧
    (create_cards [Card.mk "X" "L" none] "k" "t" envOk
        (create_cards [Card.mk "X" "L" none] "k" "t" envOk
          emptyState).state).trace.countP Event.isCreate = 1 := by
  decide

/-- C2 (code-bug evaluation): The remote list "L" already contains a card
named "Weekly Review", and the sole candidate is "Weekly Review" for "L";
the claim (and the function's docstring) demand zero creation calls, but the
run issues one read and then one creation call, because the dedup test
checks the name against the dict keys (destination ids) instead of the
fetched baseline. -/
theorem c2_existing_card_recreated :
    (create_cards [Card.mk "Weekly Review" "L" none] "k" "t" envOk
        (fun l => if l = "L" then ["Weekly Review"] else [])).trace.countP
      Event.isRead = 1 ∧
    (create_cards [Card.mk "Weekly Review" "L" none] "k" "t" envOk
        (fun l => if l = "L" then ["Weekly Review"] else [])).trace.countP
      Event.isCreate = 1 := by
  decide

/-- C10 (code-bug evaluation): Candidates: a card named "B" for
destination "A", and a card named "x" for destination "B"; remotely, a card
named "B" exists only in destination "B".  The claim demands that the
candidate ("B" → destination "A") be created, since dedup is scoped per
destination; instead the run completes without any creation call for name
"B", because "B" is a key (a destination id) of the baseline dict and the
faulty membership test therefore skips the candidate. -/
theorem c10_cross_destination_name_skipped :
    (create_cards [Card.mk "B" "A" none, Card.mk "x" "B" none] "k" "t" envOk
        (fun l => if l = "B" then ["B"] else [])).trace.countP
      (fun e => match e with
        | Event.create q => q.name == "B"
        | Event.read _ => false) = 0 ∧
    (create_cards [Card.mk "B" "A" none, Card.mk "x" "B" none] "k" "t" envOk
        (fun l => if l = "B" then ["B"] else [])).ok = true := by
  decide

/-! ## Claims about rule loading -/

/-- C7 counterexample: A record that omits the optional field `year`
entirely (while supplying every other field, as null) is NOT accepted:
`Rule(**rule)` raises a `TypeError`, because no field of the dataclass has a
default value.  This refutes the claim that absence of an optional field is
accepted and treated as a wildcard. -/
theorem c7_absent_field_rejected :
    ruleOfRecord [("card_name", JVal.jstr "A"), ("list_id", JVal.jstr "L"),
        ("month", JVal.jnull), ("day", JVal.jnull), ("weekday", JVal.jnull),
        ("due_in", JVal.jnull)] =
      Except.error "TypeError: missing required positional argument" := by
  rfl

/-- C7 (amended): A record that supplies all seven fields, with an
explicit null for each of the five optional fields, is accepted at load
time, and the nulls are treated as wildcard / no due date when evaluated: the
loaded rule produces a candidate with no due timestamp for every evaluation
date.  (Omitting a field entirely is rejected at load time.) -/
theorem c7_null_fields_are_wildcards (name dest : String) (d : Date) (t : Time) :
    ruleOfRecord [("card_name", JVal.jstr name), ("list_id", JVal.jstr dest),
        ("year", JVal.jnull), ("month", JVal.jnull), ("day", JVal.jnull),
        ("weekday", JVal.jnull), ("due_in", JVal.jnull)] =
      Except.ok (DynRule.mk (JVal.jstr name) (JVal.jstr dest) JVal.jnull
        JVal.jnull JVal.jnull JVal.jnull JVal.jnull) ∧
    (DynRule.mk (JVal.jstr name) (JVal.jstr dest) JVal.jnull JVal.jnull
        JVal.jnull JVal.jnull JVal.jnull).toRule =
      some (Rule.mk name dest none none none none none) ∧
    get_cards [Rule.mk name dest none none none none none] d t =
      [Card.mk name dest none] :=
  ⟨rfl, rfl, rfl⟩

/-- C8 counterexample: A record with an EMPTY name and a string (not an
integer) in the `year` field loads without any error: `Rule(**rule)` neither
checks field types nor rejects empty names, so the run does not fail while
loading this malformed record.  This refutes the claim that invalid field
types or empty names are rejected at load time. -/
theorem c8_invalid_type_and_empty_name_accepted :
    ruleOfRecord [("card_name", JVal.jstr ""), ("list_id", JVal.jstr "L"),
        ("year", JVal.jstr "not an int"), ("month", JVal.jnull),
        ("day", JVal.jnull), ("weekday", JVal.jnull), ("due_in", JVal.jnull)] =
      Except.ok (DynRule.mk (JVal.jstr "") (JVal.jstr "L")
        (JVal.jstr "not an int") JVal.jnull JVal.jnull JVal.jnull JVal.jnull) := by
  rfl

/-- C8 (amended): Rule loading fails exactly when a record omits one of
the seven dataclass fields or contains an unexpected key; it performs no
validation of field types and no emptiness check on the name.  (In `main`
the rules are loaded before `create_cards` is called, so a load failure
occurs before any network activity.) -/
theorem c8_load_failure_characterization (rec : List (String × JVal)) :
    (ruleOfRecord rec).isOk = true ↔
      (rec.all (fun p => ruleFields.contains p.1) = true ∧
        ruleFields.all (fun f => (rec.lookup f).isSome) = true) := by
  unfold ruleOfRecord
  by_cases hbad : rec.any (fun p => !ruleFields.contains p.1) = true
  · rw [if_pos hbad]
    constructor
    · intro h
      simp [Except.isOk, Except.toBool] at h
    · rintro ⟨h1, _⟩
      rcases List.any_eq_true.mp hbad with ⟨p, hp, hnp⟩
      have hmem : ruleFields.contains p.1 = true := List.all_eq_true.mp h1 p hp
      rw [Bool.not_eq_true', hmem] at hnp
      exact Bool.noConfusion hnp
  · rw [if_neg hbad]
    have hall : rec.all (fun p => ruleFields.contains p.1) = true := by
      rw [List.all_eq_true]
      intro p hp
      by_contra hc
      exact hbad (List.any_eq_true.mpr ⟨p, hp, by simpa using hc⟩)
    rcases h1 : rec.lookup "card_name" with _ | v1 <;>
      rcases h2 : rec.lookup "list_id" with _ | v2 <;>
      rcases h3 : rec.lookup "year" with _ | v3 <;>
      rcases h4 : rec.lookup "month" with _ | v4 <;>
      rcases h5 : rec.lookup "day" with _ | v5 <;>
      rcases h6 : rec.lookup "weekday" with _ | v6 <;>
      rcases h7 : rec.lookup "due_in" with _ | v7
    all_goals rw [hall]
    all_goals simp only [h1, h2, h3, h4, h5, h6, h7, ruleFields, List.all_cons,
      List.all_nil, Option.isSome_some, Option.isSome_none, Except.isOk,
      Except.toBool, Bool.and_true, Bool.true_and, Bool.and_false,
      Bool.false_and]
    all_goals simp

theorem c8_load_failure_characterization_witness :
    (ruleOfRecord [("card_name", JVal.jstr ""), ("list_id", JVal.jstr "L"),
        ("year", JVal.jstr "x"), ("month", JVal.jnull), ("day", JVal.jnull),
        ("weekday", JVal.jnull), ("due_in", JVal.jnull)]).isOk = true :=
  (c8_load_failure_characterization [("card_name", JVal.jstr ""),
      ("list_id", JVal.jstr "L"), ("year", JVal.jstr "x"), ("month", JVal.jnull),
      ("day", JVal.jnull), ("weekday", JVal.jnull), ("due_in", JVal.jnull)]).mpr
    (by decide)

end RecurrentTasks
